import Mathlib

/-!
# Pong: circle mesh generation and per-frame world update

A shallow embedding of `src/main.cpp`.

* `float`/`double` arithmetic is read as exact arithmetic in a linearly ordered
  field `α` (instantiate `α := ℚ` to run the definitions, `α := ℝ` for the
  trigonometric statements).  Rounding and NaN are not modelled there.
* The one place where rounding decides a statement is the pair of updates
  `ballVelocity.x += 5.0f` and `ballVelocity.x -= 5.0f`.  For it the writes to
  `ballVelocity.x` are modelled a second time (`velocityXStep`) with the
  rounding of each addition as a parameter, and instantiated with binary32
  round-to-nearest-even on finite values (`roundF32`, `ballVelocityX32`).
* `unsigned int` arithmetic is arithmetic on `Nat` modulo `2 ^ 32`; `int`
  arithmetic that leaves the 32-bit signed range, and array accesses outside the
  allocated block, are undefined behaviour in the source and are modelled as a
  `Fault`.
* The globals `paddleOffsets`, `ballOffset`, `paddleVelocities`, `ballVelocity`,
  `scrWidth`, `scrHeight` are collected in the record `World` and passed
  explicitly.
-/

namespace Pong

/-! ## Data model -/

/-- The 2d vector structure of the source (`struct vec2`). -/
structure vec2 (α : Type) where
  x : α
  y : α
deriving DecidableEq

/-- The mutable globals read and written by the render loop. -/
structure World (α : Type) where
  scrWidth : Nat
  scrHeight : Nat
  paddleOffsets0 : vec2 α
  paddleOffsets1 : vec2 α
  ballOffset : vec2 α
  paddleVelocities0 : α
  paddleVelocities1 : α
  ballVelocity : vec2 α
deriving DecidableEq

/-- The four paddle keys polled by `processInput` (`true` = `GLFW_PRESS`). -/
structure Keys where
  keyW : Bool
  keyS : Bool
  keyUp : Bool
  keyDown : Bool
deriving DecidableEq

section Physics

variable {α : Type} [LinearOrderedField α]

/-! ## Graphics parameters (lines 16-24, 40) -/

def paddleSpeed : α := 600
def paddleHeight : α := 100
def halfPaddleHeight : α := paddleHeight / 2
def paddleWidth : α := 10
def halfPaddleWidth : α := paddleWidth / 2
def ballDiameter : α := 20
def ballRadius : α := ballDiameter / 2
def offset : α := ballRadius
def paddleBoundary : α := halfPaddleHeight + offset
def initialBallVelocity : vec2 α := ⟨150, 150⟩

/-! ## `processInput` (lines 308-336) -/

/-- The paddle part of `processInput`: both velocities are cleared, then each
pressed key sets the velocity of its paddle when the paddle is inside the gate. -/
def processInput (keys : Keys) (s : World α) : World α :=
  let s := { s with paddleVelocities0 := 0 }
  let s := { s with paddleVelocities1 := 0 }
  let s := if keys.keyW = true ∧ s.paddleOffsets0.y < (s.scrHeight : α) - paddleBoundary
    then { s with paddleVelocities0 := paddleSpeed } else s
  let s := if keys.keyS = true ∧ s.paddleOffsets0.y > paddleBoundary
    then { s with paddleVelocities0 := -paddleSpeed } else s
  let s := if keys.keyUp = true ∧ s.paddleOffsets1.y < (s.scrHeight : α) - paddleBoundary
    then { s with paddleVelocities1 := paddleSpeed } else s
  let s := if keys.keyDown = true ∧ s.paddleOffsets1.y > paddleBoundary
    then { s with paddleVelocities1 := -paddleSpeed } else s
  s

/-! ## The physics block of the render loop (lines 497-581) -/

/-- Lines 497-503: paddle and ball positions advance by velocity times `dt`. -/
def integrate (dt : α) (s : World α) : World α :=
  let s := { s with paddleOffsets0 := ⟨s.paddleOffsets0.x, s.paddleOffsets0.y + s.paddleVelocities0 * dt⟩ }
  let s := { s with paddleOffsets1 := ⟨s.paddleOffsets1.x, s.paddleOffsets1.y + s.paddleVelocities1 * dt⟩ }
  let s := { s with ballOffset := ⟨s.ballOffset.x + s.ballVelocity.x * dt, s.ballOffset.y⟩ }
  let s := { s with ballOffset := ⟨s.ballOffset.x, s.ballOffset.y + s.ballVelocity.y * dt⟩ }
  s

/-- Lines 509-515: collision with the bottom and the top of the playing field. -/
def fieldCollision (s : World α) : World α :=
  let s := if s.ballOffset.y - ballRadius ≤ 0
    then { s with ballVelocity := ⟨s.ballVelocity.x, |s.ballVelocity.y|⟩ } else s
  let s := if s.ballOffset.y + ballRadius ≥ (s.scrHeight : α)
    then { s with ballVelocity := ⟨s.ballVelocity.x, -|s.ballVelocity.y|⟩ } else s
  s

/-- Line 518: `distanceLeftPaddle`. -/
def distanceLeftPaddle (s : World α) : vec2 α :=
  ⟨|s.ballOffset.x - s.paddleOffsets0.x|, |s.ballOffset.y - s.paddleOffsets0.y|⟩

/-- Line 519: `distanceRightPaddle`. -/
def distanceRightPaddle (s : World α) : vec2 α :=
  ⟨|s.ballOffset.x - s.paddleOffsets1.x|, |s.ballOffset.y - s.paddleOffsets1.y|⟩

/-- The condition of line 523, which sets `collisionLeft`. -/
def collisionLeft (s : World α) : Bool :=
  decide ((distanceLeftPaddle s).x ≤ ballRadius + halfPaddleWidth
    ∧ (distanceLeftPaddle s).y ≤ ballRadius + halfPaddleHeight)

/-- The condition of line 527, which sets `collisionRight`. -/
def collisionRight (s : World α) : Bool :=
  decide ((distanceRightPaddle s).x ≤ ballRadius + halfPaddleWidth
    ∧ (distanceRightPaddle s).y ≤ ballRadius + halfPaddleHeight)

/-- Lines 517-541: paddle and ball collision.  The two flags are computed from
positions only, which the block does not change, so they are read off the
incoming state.  The additions of lines 535-540 are exact here; the binary32
rounding of lines 536 and 540 is modelled in `ballVelocityX32`. -/
def paddleCollision (s : World α) : World α :=
  let cl := collisionLeft s
  let cr := collisionRight s
  let s := if cl = true
    then { s with ballVelocity := ⟨|s.ballVelocity.x|, s.ballVelocity.y⟩ } else s
  let s := if cr = true
    then { s with ballVelocity := ⟨-|s.ballVelocity.x|, s.ballVelocity.y⟩ } else s
  let k : α := 2 / 10
  let s := if cl = true
    then
      let s := { s with ballVelocity := ⟨s.ballVelocity.x, s.ballVelocity.y + k * s.paddleVelocities0⟩ }
      { s with ballVelocity := ⟨s.ballVelocity.x + 5, s.ballVelocity.y⟩ }
    else s
  let s := if cr = true
    then
      let s := { s with ballVelocity := ⟨s.ballVelocity.x, s.ballVelocity.y + k * s.paddleVelocities1⟩ }
      { s with ballVelocity := ⟨s.ballVelocity.x - 5, s.ballVelocity.y⟩ }
    else s
  s

/-- Lines 560-568: the value of `reset` (0 none, 1 right player point, 2 left
player point; the later test overwrites the earlier one). -/
def resetFlag (s : World α) : Nat :=
  let reset := 0
  let reset := if s.ballOffset.x - ballRadius ≤ 0 then 1 else reset
  let reset := if s.ballOffset.x + ballRadius ≥ (s.scrWidth : α) then 2 else reset
  reset

/-- Lines 570-581: when `reset` is non-zero, ball position, ball velocity and
both paddle positions are overwritten. -/
def scoreReset (s : World α) : World α :=
  let reset := resetFlag s
  if reset ≠ 0 then
    let s := { s with ballOffset := ⟨(s.scrWidth : α) / 2, (s.scrHeight : α) / 2⟩ }
    let s := { s with ballVelocity :=
      ⟨if reset = 1 then initialBallVelocity.x else -initialBallVelocity.x, s.ballVelocity.y⟩ }
    let s := { s with ballVelocity := ⟨s.ballVelocity.x, initialBallVelocity.y⟩ }
    let s := { s with paddleOffsets0 := ⟨20, (s.scrHeight : α) / 2⟩ }
    let s := { s with paddleOffsets1 := ⟨(s.scrWidth : α) - 20, (s.scrHeight : α) / 2⟩ }
    s
  else s

/-- The physics of one iteration of the render loop (lines 497-581). -/
def physics (dt : α) (s : World α) : World α :=
  scoreReset (paddleCollision (fieldCollision (integrate dt s)))

/-- One iteration of the render loop up to the graphics part: input, then
physics (lines 491-581). -/
def frame (keys : Keys) (dt : α) (s : World α) : World α :=
  physics dt (processInput keys s)

end Physics

/-! ## Circle mesh generation (`gen2DCircleArray`, lines 251-286) -/

/-- Undefined behaviour of the source that the model makes explicit. -/
inductive Fault where
  /-- An array element outside the allocated block is accessed. -/
  | outOfBounds
  /-- An `int` expression leaves the 32-bit signed range. -/
  | signedOverflow
deriving DecidableEq

/-- Reduction of an `unsigned int` result modulo `2 ^ 32`. -/
def u32 (n : Nat) : Nat := n % 2 ^ 32

/-- The value of a non-negative `int` expression: a fault when it exceeds
`INT_MAX`.  All `int` expressions of `gen2DCircleArray` are built from the
non-negative counter `i` with `+` and `*` by positive literals, so every
intermediate value is at most the final one and it suffices to test that. -/
def int32 (n : Nat) : Except Fault Nat :=
  if n < 2 ^ 31 then .ok n else .error .signedOverflow

/-- The `float` library functions used by `gen2DCircleArray`. -/
structure Trig (α : Type) where
  cosf : α → α
  sinf : α → α
  atanf : α → α

/-- A block returned by `new T[len]`: `len` cells, none of them initialised. -/
def alloc (β : Type) (len : Nat) : List (Option β) := List.replicate len none

/-- The assignment `buf[idx] = v`. -/
def store {β : Type} (buf : List (Option β)) (idx : Nat) (v : β) :
    Except Fault (List (Option β)) :=
  if idx < buf.length then .ok (buf.set idx (some v)) else .error .outOfBounds

/-- The two output arrays of `gen2DCircleArray`. -/
structure Mesh (α : Type) where
  vertices : List (Option α)
  indices : List (Option Nat)
deriving DecidableEq

/-- The variables live across the iterations of the `for` loop. -/
structure LoopState (α : Type) where
  vertices : List (Option α)
  indices : List (Option Nat)
  theta : α
deriving DecidableEq

section MeshGen

variable {α : Type} [Field α]

/-- The body of the `for` loop (lines 272-281) at counter value `i`. -/
def circleBody (T : Trig α) (noTriangles : Nat) (radius pi : α) (i : Nat)
    (st : LoopState α) : Except Fault (LoopState α) := do
  let vx ← int32 ((i + 1) * 2 + 0)
  let vertices ← store st.vertices vx (radius * T.cosf st.theta)
  let vy ← int32 ((i + 1) * 2 + 1)
  let vertices ← store vertices vy (radius * T.sinf st.theta)
  let i0 ← int32 (i * 3 + 0)
  let indices ← store st.indices i0 0
  let i1 ← int32 (i * 3 + 1)
  let indices ← store indices i1 (i + 1)
  let i2 ← int32 (i * 3 + 2)
  let indices ← store indices i2 (i + 2)
  let theta := st.theta + (2 * pi) / (noTriangles : α)
  .ok ⟨vertices, indices, theta⟩

/-- The loop `for (int i = 0; i < noTriangles; i++)`, entered at counter value
`i` with `remaining = noTriangles - i` iterations to go.  (The comparison
converts `i` to `unsigned int`, which is the identity on the values below
`2 ^ 31` that `i` can take before the body faults.) -/
def circleLoop (T : Trig α) (noTriangles : Nat) (radius pi : α) :
    Nat → Nat → LoopState α → Except Fault (LoopState α)
  | 0, _, st => .ok st
  | remaining + 1, i, st =>
    match circleBody T noTriangles radius pi i st with
    | .error e => .error e
    | .ok st => circleLoop T noTriangles radius pi remaining (i + 1) st

/-- The index expression `((noTriangles - 1) * 3) + 2` of line 285, in
`unsigned int` arithmetic (`noTriangles - 1` wraps to `2 ^ 32 - 1` at `0`). -/
def wrapAroundIndex (noTriangles : Nat) : Nat :=
  u32 (u32 (u32 (noTriangles + 2 ^ 32 - 1) * 3) + 2)

/-- The function `gen2DCircleArray(vertices, indices, noTriangles, radius)`;
`noTriangles` is an `unsigned int`, so it is meant for `noTriangles < 2 ^ 32`.
Allocation itself is assumed to succeed. -/
def gen2DCircleArray (T : Trig α) (noTriangles : Nat) (radius : α) :
    Except Fault (Mesh α) := do
  let vertices := alloc α (u32 (u32 (noTriangles + 1) * 2))
  let vertices ← store vertices 0 0
  let vertices ← store vertices 1 0
  let indices := alloc Nat (u32 (noTriangles * 3))
  let pi : α := 4 * T.atanf 1
  let theta : α := 0
  let st ← circleLoop T noTriangles radius pi noTriangles 0 ⟨vertices, indices, theta⟩
  let indices ← store st.indices (wrapAroundIndex noTriangles) 1
  .ok ⟨st.vertices, indices⟩

end MeshGen

/-! ## `ballVelocity.x` in binary32 -/

/-- The writes to `ballVelocity.x` in one iteration of the render loop, in
program order: lines 525 and 529 (`fabs`, exact), lines 536 and 540 (`+= 5.0f`,
`-= 5.0f`, each result rounded by `fl`) and line 575 (reset).  The two flags
and `reset` are the values the iteration computed from the positions; `unit`
is the number that stands for `1.0f`. -/
def velocityXStep {β : Type} [LinearOrderedRing β] (fl : β → β) (unit : β)
    (collisionLeft collisionRight : Bool) (reset : Nat) (vx : β) : β :=
  let vx := if collisionLeft = true then |vx| else vx
  let vx := if collisionRight = true then -|vx| else vx
  let vx := if collisionLeft = true then fl (vx + 5 * unit) else vx
  let vx := if collisionRight = true then fl (vx - 5 * unit) else vx
  let vx := if reset ≠ 0 then (if reset = 1 then 150 * unit else -(150 * unit)) else vx
  vx

/-- The spacing of the binary32 numbers around the magnitude `n`, counted in
units of `2 ^ (-149)` (the smallest positive binary32 number): 24 significant
bits are kept, and below `2 ^ 24` units (subnormals and the first binade of
normal numbers) the spacing is one unit. -/
def ulp32 (n : Nat) : Nat := 2 ^ (Nat.log2 n - 23)

/-- The multiple of `q` nearest to `n`, a tie going to the even multiple. -/
def roundToMultiple (q n : Nat) : Nat :=
  let m := n / q
  let r := n % q
  if 2 * r < q then m * q
  else if q < 2 * r then (m + 1) * q
  else if m % 2 = 0 then m * q
  else (m + 1) * q

/-- Round-to-nearest-even of a magnitude of `n` units to binary32. -/
def roundNat32 (n : Nat) : Nat := roundToMultiple (ulp32 n) n

/-- Round-to-nearest-even to binary32 of the real number `k * 2 ^ (-149)`.
Sums and differences of binary32 numbers are of this form.  Overflow to
infinity is not modelled. -/
def roundF32 (k : Int) : Int :=
  if 0 ≤ k then (roundNat32 k.natAbs : Int) else -(roundNat32 k.natAbs : Int)

/-- The largest finite binary32 number, `(2 ^ 24 - 1) * 2 ^ 104`, in units of
`2 ^ (-149)`. -/
def maxF32 : Nat := (2 ^ 24 - 1) * 2 ^ 253

/-- The number `k * 2 ^ (-149)` is a finite binary32 number. -/
def isF32 (k : Int) : Prop := k.natAbs % ulp32 k.natAbs = 0 ∧ k.natAbs ≤ maxF32

instance isF32Decidable (k : Int) : Decidable (isF32 k) :=
  inferInstanceAs (Decidable (_ ∧ _))

/-- The writes to `ballVelocity.x` in binary32: values are counted in units of
`2 ^ (-149)`, so `1.0f` is `2 ^ 149`. -/
def ballVelocityX32 (collisionLeft collisionRight : Bool) (reset : Nat) (vx : Int) : Int :=
  velocityXStep roundF32 (2 ^ 149) collisionLeft collisionRight reset vx

/-! ## Example states -/

/-- The state the scoring example of the specification starts from: field
800x600, ball at `x = -1`, paddles and velocities away from their start values. -/
def scoringWorld : World ℚ :=
  { scrWidth := 800, scrHeight := 600,
    paddleOffsets0 := ⟨20, 250⟩, paddleOffsets1 := ⟨780, 410⟩,
    ballOffset := ⟨-1, 120⟩,
    paddleVelocities0 := 0, paddleVelocities1 := 0,
    ballVelocity := ⟨-165, 87⟩ }

/-- The state of the wall-bounce example of the specification: the ball is at
`y = -0.1` and moves down with `velocity.y = -150`. -/
def wallBounceWorld : World ℚ :=
  { scrWidth := 800, scrHeight := 600,
    paddleOffsets0 := ⟨20, 300⟩, paddleOffsets1 := ⟨780, 300⟩,
    ballOffset := ⟨400, -1 / 10⟩,
    paddleVelocities0 := 0, paddleVelocities1 := 0,
    ballVelocity := ⟨150, -150⟩ }

/-- A field so narrow (`scrWidth = 40`) that the right paddle sits on the left
one at `x = 20`, with the ball between them.  All coordinates are small
integers, exact in binary32. -/
def narrowWorld : World ℚ :=
  { scrWidth := 40, scrHeight := 600,
    paddleOffsets0 := ⟨20, 300⟩, paddleOffsets1 := ⟨20, 300⟩,
    ballOffset := ⟨20, 300⟩,
    paddleVelocities0 := 0, paddleVelocities1 := 0,
    ballVelocity := ⟨150, 150⟩ }

/-- The state at startup (lines 10-11, 41, 413-414, 454): field 800x600, the
paddles at `(20, 300)` and `(780, 300)`, the ball at the centre `(400, 300)`
with velocity `(150, 150)`. -/
def initialWorld : World ℚ :=
  { scrWidth := 800, scrHeight := 600,
    paddleOffsets0 := ⟨20, 300⟩, paddleOffsets1 := ⟨780, 300⟩,
    ballOffset := ⟨400, 300⟩,
    paddleVelocities0 := 0, paddleVelocities1 := 0,
    ballVelocity := ⟨150, 150⟩ }

/-- Only the `W` key (left paddle up) is pressed. -/
def keysW : Keys := { keyW := true, keyS := false, keyUp := false, keyDown := false }

/-- Rational stand-ins for `cosf`, `sinf` and `atanf` (low-order Taylor
polynomials), used to run `gen2DCircleArray` on concrete inputs. -/
def ratTrig : Trig ℚ :=
  { cosf := fun x => 1 - x * x / 2, sinf := fun x => x - x * x * x / 6, atanf := fun x => x }

/-! ## Frame lemmas for the physics blocks -/

section PhysicsLemmas

variable {α : Type} [LinearOrderedField α]

theorem fieldCollision_ballOffset (s : World α) :
    (fieldCollision s).ballOffset = s.ballOffset := by
  unfold fieldCollision; dsimp only; split_ifs <;> rfl

theorem fieldCollision_scrWidth (s : World α) :
    (fieldCollision s).scrWidth = s.scrWidth := by
  unfold fieldCollision; dsimp only; split_ifs <;> rfl

theorem fieldCollision_scrHeight (s : World α) :
    (fieldCollision s).scrHeight = s.scrHeight := by
  unfold fieldCollision; dsimp only; split_ifs <;> rfl

theorem fieldCollision_paddleOffsets0 (s : World α) :
    (fieldCollision s).paddleOffsets0 = s.paddleOffsets0 := by
  unfold fieldCollision; dsimp only; split_ifs <;> rfl

theorem fieldCollision_paddleOffsets1 (s : World α) :
    (fieldCollision s).paddleOffsets1 = s.paddleOffsets1 := by
  unfold fieldCollision; dsimp only; split_ifs <;> rfl

theorem fieldCollision_paddleVelocities1 (s : World α) :
    (fieldCollision s).paddleVelocities1 = s.paddleVelocities1 := by
  unfold fieldCollision; dsimp only; split_ifs <;> rfl

theorem fieldCollision_velocity_x (s : World α) :
    (fieldCollision s).ballVelocity.x = s.ballVelocity.x := by
  unfold fieldCollision; dsimp only; split_ifs <;> rfl

theorem paddleCollision_ballOffset (s : World α) :
    (paddleCollision s).ballOffset = s.ballOffset := by
  unfold paddleCollision; dsimp only; split_ifs <;> rfl

theorem paddleCollision_scrWidth (s : World α) :
    (paddleCollision s).scrWidth = s.scrWidth := by
  unfold paddleCollision; dsimp only; split_ifs <;> rfl

theorem paddleCollision_scrHeight (s : World α) :
    (paddleCollision s).scrHeight = s.scrHeight := by
  unfold paddleCollision; dsimp only; split_ifs <;> rfl

theorem paddleCollision_paddleOffsets0 (s : World α) :
    (paddleCollision s).paddleOffsets0 = s.paddleOffsets0 := by
  unfold paddleCollision; dsimp only; split_ifs <;> rfl

theorem paddleCollision_paddleOffsets1 (s : World α) :
    (paddleCollision s).paddleOffsets1 = s.paddleOffsets1 := by
  unfold paddleCollision; dsimp only; split_ifs <;> rfl

theorem collisionLeft_fieldCollision (s : World α) :
    collisionLeft (fieldCollision s) = collisionLeft s := by
  simp only [collisionLeft, distanceLeftPaddle, fieldCollision_ballOffset,
    fieldCollision_paddleOffsets0]

theorem collisionRight_fieldCollision (s : World α) :
    collisionRight (fieldCollision s) = collisionRight s := by
  simp only [collisionRight, distanceRightPaddle, fieldCollision_ballOffset,
    fieldCollision_paddleOffsets1]

/-- The value of `reset` is decided by the integrated position: the two
collision blocks do not move the ball or resize the field. -/
theorem resetFlag_collisions (s : World α) :
    resetFlag (paddleCollision (fieldCollision s)) = resetFlag s := by
  simp only [resetFlag, paddleCollision_ballOffset, paddleCollision_scrWidth,
    fieldCollision_ballOffset, fieldCollision_scrWidth]

theorem resetFlag_eq_zero_iff (s : World α) :
    resetFlag s = 0 ↔
      0 < s.ballOffset.x - ballRadius ∧ s.ballOffset.x + ballRadius < (s.scrWidth : α) := by
  unfold resetFlag; dsimp only
  split_ifs <;> simp_all

/-- With a score condition after integration, the step ends with ball and
paddles at their reset positions. -/
theorem physics_positions_of_score (dt : α) (s : World α)
    (h : (integrate dt s).ballOffset.x - ballRadius ≤ 0
      ∨ (integrate dt s).ballOffset.x + ballRadius ≥ ((integrate dt s).scrWidth : α)) :
    (physics dt s).ballOffset = ⟨(s.scrWidth : α) / 2, (s.scrHeight : α) / 2⟩
      ∧ (physics dt s).paddleOffsets0 = ⟨20, (s.scrHeight : α) / 2⟩
      ∧ (physics dt s).paddleOffsets1 = ⟨(s.scrWidth : α) - 20, (s.scrHeight : α) / 2⟩ := by
  have hr : resetFlag (integrate dt s) ≠ 0 := by
    rw [Ne, resetFlag_eq_zero_iff]
    rcases h with h | h
    · exact fun hh => absurd hh.1 (not_lt.mpr h)
    · exact fun hh => absurd hh.2 (not_lt.mpr h)
  simp only [physics, scoreReset, resetFlag_collisions, if_pos hr,
    paddleCollision_scrWidth, paddleCollision_scrHeight, fieldCollision_scrWidth,
    fieldCollision_scrHeight]
  simp [integrate]

/-- Without a score condition after integration, the step ends with the state
left by the two collision blocks. -/
theorem physics_of_no_score (dt : α) (s : World α)
    (h1 : 0 < (integrate dt s).ballOffset.x - ballRadius)
    (h2 : (integrate dt s).ballOffset.x + ballRadius < ((integrate dt s).scrWidth : α)) :
    physics dt s = paddleCollision (fieldCollision (integrate dt s)) := by
  have hr : resetFlag (integrate dt s) = 0 := (resetFlag_eq_zero_iff _).2 ⟨h1, h2⟩
  simp only [physics, scoreReset, resetFlag_collisions, hr, ne_eq, not_true_eq_false,
    if_false]

/-- Without a score condition after integration, ball and paddles end the step
at their integrated positions. -/
theorem physics_positions_of_no_score (dt : α) (s : World α)
    (h1 : 0 < (integrate dt s).ballOffset.x - ballRadius)
    (h2 : (integrate dt s).ballOffset.x + ballRadius < ((integrate dt s).scrWidth : α)) :
    (physics dt s).ballOffset = (integrate dt s).ballOffset
      ∧ (physics dt s).paddleOffsets0 = (integrate dt s).paddleOffsets0
      ∧ (physics dt s).paddleOffsets1 = (integrate dt s).paddleOffsets1 := by
  rw [physics_of_no_score dt s h1 h2]
  simp only [paddleCollision_ballOffset, paddleCollision_paddleOffsets0,
    paddleCollision_paddleOffsets1, fieldCollision_ballOffset,
    fieldCollision_paddleOffsets0, fieldCollision_paddleOffsets1, and_self]

theorem processInput_positions (keys : Keys) (s : World α) :
    (processInput keys s).scrWidth = s.scrWidth
      ∧ (processInput keys s).scrHeight = s.scrHeight
      ∧ (processInput keys s).paddleOffsets0 = s.paddleOffsets0
      ∧ (processInput keys s).paddleOffsets1 = s.paddleOffsets1
      ∧ (processInput keys s).ballOffset = s.ballOffset
      ∧ (processInput keys s).ballVelocity = s.ballVelocity := by
  unfold processInput; dsimp only
  split_ifs <;> exact ⟨rfl, rfl, rfl, rfl, rfl, rfl⟩

/-- The gate of `processInput` on the left paddle: the velocity is `0`, or
`paddleSpeed` with the paddle below the upper gate, or `-paddleSpeed` with the
paddle above the lower gate. -/
theorem processInput_velocity0 (keys : Keys) (s : World α) :
    (processInput keys s).paddleVelocities0 = 0
      ∨ ((processInput keys s).paddleVelocities0 = paddleSpeed
          ∧ s.paddleOffsets0.y < (s.scrHeight : α) - paddleBoundary)
      ∨ ((processInput keys s).paddleVelocities0 = -paddleSpeed
          ∧ s.paddleOffsets0.y > paddleBoundary) := by
  unfold processInput; dsimp only
  split_ifs with a b c d c d b c d c d <;> simp_all

/-- The gate of `processInput` on the right paddle. -/
theorem processInput_velocity1 (keys : Keys) (s : World α) :
    (processInput keys s).paddleVelocities1 = 0
      ∨ ((processInput keys s).paddleVelocities1 = paddleSpeed
          ∧ s.paddleOffsets1.y < (s.scrHeight : α) - paddleBoundary)
      ∨ ((processInput keys s).paddleVelocities1 = -paddleSpeed
          ∧ s.paddleOffsets1.y > paddleBoundary) := by
  unfold processInput; dsimp only
  split_ifs with a b c d c d b c d c d <;> simp_all

end PhysicsLemmas

/-! ## Scoring and reset -/

section Scoring

variable {α : Type} [LinearOrderedField α]

/-- C1 (as stated, refuted): with the ball at `x = -1` on the 800x600 field the
right player scores, and the step leaves the velocity `(150, 150)`, which is
not `(-initialBallVelocity.x, initialBallVelocity.y) = (-150, 150)`. -/
theorem C1_right_point_velocity_not_negated :
    (integrate 0 scoringWorld).ballOffset.x - ballRadius ≤ 0
      ∧ (integrate 0 scoringWorld).ballOffset.x + ballRadius
          < ((integrate 0 scoringWorld).scrWidth : ℚ)
      ∧ (physics 0 scoringWorld).ballVelocity = ⟨150, 150⟩
      ∧ (physics 0 scoringWorld).ballVelocity
          ≠ ⟨-initialBallVelocity.x, initialBallVelocity.y⟩ := by
  refine ⟨by norm_num [integrate, scoringWorld, ballRadius, ballDiameter],
    by norm_num [integrate, scoringWorld, ballRadius, ballDiameter], ?_, ?_⟩ <;>
  · simp only [physics, scoreReset, resetFlag_collisions]
    norm_num [resetFlag, integrate, scoringWorld, ballRadius, ballDiameter,
      initialBallVelocity]

/-- C1 (amended): when after integration `ball.x - radius ≤ 0` and
`ball.x + radius < width` (right player point) the step leaves the velocity
`(initialBallVelocity.x, initialBallVelocity.y) = (150, 150)`; when only
`ball.x + radius ≥ width` holds (left player point) it leaves
`(-initialBallVelocity.x, initialBallVelocity.y) = (-150, 150)`. -/
theorem C1_reset_velocity (dt : α) (s : World α) :
    ((integrate dt s).ballOffset.x - ballRadius ≤ 0
        → (integrate dt s).ballOffset.x + ballRadius < ((integrate dt s).scrWidth : α)
        → (physics dt s).ballVelocity = ⟨initialBallVelocity.x, initialBallVelocity.y⟩
          ∧ (physics dt s).ballVelocity = ⟨150, 150⟩)
    ∧ (0 < (integrate dt s).ballOffset.x - ballRadius
        → (integrate dt s).ballOffset.x + ballRadius ≥ ((integrate dt s).scrWidth : α)
        → (physics dt s).ballVelocity = ⟨-initialBallVelocity.x, initialBallVelocity.y⟩
          ∧ (physics dt s).ballVelocity = ⟨-150, 150⟩) := by
  constructor
  · intro h1 h2
    have hr : resetFlag (integrate dt s) = 1 := by
      unfold resetFlag; dsimp only
      rw [if_pos h1, if_neg (not_le.mpr h2)]
    simp [physics, scoreReset, resetFlag_collisions, hr, initialBallVelocity]
  · intro _ h2
    have hr : resetFlag (integrate dt s) = 2 := by
      unfold resetFlag; dsimp only
      rw [if_pos h2]
    simp [physics, scoreReset, resetFlag_collisions, hr, initialBallVelocity]

/-- Witness of `C1_reset_velocity`: the specification's ball at `x = -1`. -/
theorem C1_reset_velocity_witness :
    (integrate 0 scoringWorld).ballOffset.x - ballRadius ≤ 0
      ∧ (integrate 0 scoringWorld).ballOffset.x + ballRadius
          < ((integrate 0 scoringWorld).scrWidth : ℚ)
      ∧ (physics 0 scoringWorld).ballVelocity = ⟨150, 150⟩ :=
  have h1 : (integrate 0 scoringWorld).ballOffset.x - ballRadius ≤ 0 := by
    norm_num [integrate, scoringWorld, ballRadius, ballDiameter]
  have h2 : (integrate 0 scoringWorld).ballOffset.x + ballRadius
      < ((integrate 0 scoringWorld).scrWidth : ℚ) := by
    norm_num [integrate, scoringWorld, ballRadius, ballDiameter]
  ⟨h1, h2, ((C1_reset_velocity 0 scoringWorld).1 h1 h2).2⟩

/-- C6: when after integration a score condition holds (`ball.x - radius ≤ 0`
or `ball.x + radius ≥ width`), the step leaves the ball at the field centre
`(width/2, height/2)`, the left paddle at `(20, height/2)` and the right paddle
at `(width - 20, height/2)`; when no score condition holds, the ball and both
paddles are left at their integrated positions. -/
theorem C6_reset_positions (dt : α) (s : World α) :
    (((integrate dt s).ballOffset.x - ballRadius ≤ 0
        ∨ (integrate dt s).ballOffset.x + ballRadius ≥ ((integrate dt s).scrWidth : α))
      → (physics dt s).ballOffset = ⟨(s.scrWidth : α) / 2, (s.scrHeight : α) / 2⟩
        ∧ (physics dt s).paddleOffsets0 = ⟨20, (s.scrHeight : α) / 2⟩
        ∧ (physics dt s).paddleOffsets1 = ⟨(s.scrWidth : α) - 20, (s.scrHeight : α) / 2⟩)
    ∧ (¬ ((integrate dt s).ballOffset.x - ballRadius ≤ 0
        ∨ (integrate dt s).ballOffset.x + ballRadius ≥ ((integrate dt s).scrWidth : α))
      → (physics dt s).ballOffset = (integrate dt s).ballOffset
        ∧ (physics dt s).paddleOffsets0 = (integrate dt s).paddleOffsets0
        ∧ (physics dt s).paddleOffsets1 = (integrate dt s).paddleOffsets1) := by
  constructor
  · exact physics_positions_of_score dt s
  · intro h
    push_neg at h
    exact physics_positions_of_no_score dt s h.1 h.2

/-- Witness of `C6_reset_positions`: on the 800x600 field a ball integrated to
`x = -1` ends at `(400, 300)` with the paddles at `(20, 300)` and `(780, 300)`. -/
theorem C6_reset_positions_witness :
    (integrate 0 scoringWorld).ballOffset.x - ballRadius ≤ 0
      ∧ (physics 0 scoringWorld).ballOffset = ⟨400, 300⟩
      ∧ (physics 0 scoringWorld).paddleOffsets0 = ⟨20, 300⟩
      ∧ (physics 0 scoringWorld).paddleOffsets1 = ⟨780, 300⟩ :=
  have h1 : (integrate 0 scoringWorld).ballOffset.x - ballRadius ≤ 0 := by
    norm_num [integrate, scoringWorld, ballRadius, ballDiameter]
  have h := (C6_reset_positions 0 scoringWorld).1 (Or.inl h1)
  ⟨h1, by rw [h.1]; norm_num [scoringWorld], by rw [h.2.1]; norm_num [scoringWorld],
    by rw [h.2.2]; norm_num [scoringWorld]⟩

end Scoring

/-! ## Wall bounce and paddle collision -/

section Collisions

variable {α : Type} [LinearOrderedField α]

theorem collisionLeft_eq_true_iff (s : World α) :
    collisionLeft s = true ↔
      |s.ballOffset.x - s.paddleOffsets0.x| ≤ ballRadius + halfPaddleWidth
        ∧ |s.ballOffset.y - s.paddleOffsets0.y| ≤ ballRadius + halfPaddleHeight := by
  simp [collisionLeft, distanceLeftPaddle]

theorem collisionRight_eq_true_iff (s : World α) :
    collisionRight s = true ↔
      |s.ballOffset.x - s.paddleOffsets1.x| ≤ ballRadius + halfPaddleWidth
        ∧ |s.ballOffset.y - s.paddleOffsets1.y| ≤ ballRadius + halfPaddleHeight := by
  simp [collisionRight, distanceRightPaddle]

/-- The velocity left by the paddle collision block, by the two flags. -/
theorem paddleCollision_velocity (s : World α) :
    (paddleCollision s).ballVelocity =
      match collisionLeft s, collisionRight s with
      | false, false => s.ballVelocity
      | true, false =>
          ⟨|s.ballVelocity.x| + 5, s.ballVelocity.y + 2 / 10 * s.paddleVelocities0⟩
      | false, true =>
          ⟨-|s.ballVelocity.x| - 5, s.ballVelocity.y + 2 / 10 * s.paddleVelocities1⟩
      | true, true =>
          ⟨-|s.ballVelocity.x| + 5 - 5,
            s.ballVelocity.y + 2 / 10 * s.paddleVelocities0 + 2 / 10 * s.paddleVelocities1⟩ := by
  unfold paddleCollision
  cases collisionLeft s <;> cases collisionRight s <;> simp

/-- C5: when after integration `ball.y - radius ≤ 0` and
`ball.y + radius < height`, neither paddle test holds and no score condition
holds, the step leaves `velocity.y = |pre-step velocity.y|` (non-negative) and
`velocity.x` unchanged. -/
theorem C5_bottom_wall_bounce (dt : α) (s : World α)
    (hb : (integrate dt s).ballOffset.y - ballRadius ≤ 0)
    (ht : (integrate dt s).ballOffset.y + ballRadius < ((integrate dt s).scrHeight : α))
    (hl : ¬ (|(integrate dt s).ballOffset.x - (integrate dt s).paddleOffsets0.x|
        ≤ ballRadius + halfPaddleWidth
      ∧ |(integrate dt s).ballOffset.y - (integrate dt s).paddleOffsets0.y|
        ≤ ballRadius + halfPaddleHeight))
    (hr : ¬ (|(integrate dt s).ballOffset.x - (integrate dt s).paddleOffsets1.x|
        ≤ ballRadius + halfPaddleWidth
      ∧ |(integrate dt s).ballOffset.y - (integrate dt s).paddleOffsets1.y|
        ≤ ballRadius + halfPaddleHeight))
    (h1 : 0 < (integrate dt s).ballOffset.x - ballRadius)
    (h2 : (integrate dt s).ballOffset.x + ballRadius < ((integrate dt s).scrWidth : α)) :
    (physics dt s).ballVelocity.y = |s.ballVelocity.y|
      ∧ 0 ≤ (physics dt s).ballVelocity.y
      ∧ (physics dt s).ballVelocity.x = s.ballVelocity.x := by
  have hlf : collisionLeft (fieldCollision (integrate dt s)) = false := by
    rw [collisionLeft_fieldCollision, ← Bool.not_eq_true, collisionLeft_eq_true_iff]
    exact hl
  have hrf : collisionRight (fieldCollision (integrate dt s)) = false := by
    rw [collisionRight_fieldCollision, ← Bool.not_eq_true, collisionRight_eq_true_iff]
    exact hr
  have hv := paddleCollision_velocity (fieldCollision (integrate dt s))
  rw [hlf, hrf] at hv
  have hf : (fieldCollision (integrate dt s)).ballVelocity
      = ⟨s.ballVelocity.x, |s.ballVelocity.y|⟩ := by
    unfold fieldCollision; dsimp only
    rw [if_pos hb, if_neg (not_le.mpr ht)]
    rfl
  rw [physics_of_no_score dt s h1 h2, hv, hf]
  exact ⟨rfl, abs_nonneg _, rfl⟩

/-- Witness of `C5_bottom_wall_bounce`: a ball at `y = -0.1` with
`velocity.y = -150` ends the step with `velocity.y = +150`. -/
theorem C5_bottom_wall_bounce_witness :
    (integrate 0 wallBounceWorld).ballOffset.y = -1 / 10
      ∧ wallBounceWorld.ballVelocity.y = -150
      ∧ (physics 0 wallBounceWorld).ballVelocity.y = 150 := by
  have h := C5_bottom_wall_bounce 0 wallBounceWorld
    (by norm_num [integrate, wallBounceWorld, ballRadius, ballDiameter])
    (by norm_num [integrate, wallBounceWorld, ballRadius, ballDiameter])
    (by norm_num [integrate, wallBounceWorld, ballRadius, ballDiameter, halfPaddleWidth,
      paddleWidth, abs_le])
    (by norm_num [integrate, wallBounceWorld, ballRadius, ballDiameter, halfPaddleWidth,
      paddleWidth, abs_le])
    (by norm_num [integrate, wallBounceWorld, ballRadius, ballDiameter])
    (by norm_num [integrate, wallBounceWorld, ballRadius, ballDiameter])
  refine ⟨by norm_num [integrate, wallBounceWorld], rfl, ?_⟩
  rw [h.1]
  norm_num [wallBounceWorld]

/-- In the exact reading (`fl` the identity, `unit = 1`) `velocityXStep` is the
`x` velocity that `physics` leaves. -/
theorem physics_velocity_x (dt : α) (s : World α) :
    (physics dt s).ballVelocity.x
      = velocityXStep id 1 (collisionLeft (integrate dt s)) (collisionRight (integrate dt s))
          (resetFlag (integrate dt s)) s.ballVelocity.x := by
  have hv := paddleCollision_velocity (fieldCollision (integrate dt s))
  have hvx : (fieldCollision (integrate dt s)).ballVelocity.x = s.ballVelocity.x := by
    rw [fieldCollision_velocity_x]; rfl
  rw [collisionLeft_fieldCollision, collisionRight_fieldCollision] at hv
  by_cases hr : resetFlag (integrate dt s) = 0
  · have hp : physics dt s = paddleCollision (fieldCollision (integrate dt s)) := by
      simp only [physics, scoreReset, resetFlag_collisions, hr, ne_eq, not_true_eq_false,
        if_false]
    rw [hp, hv, hr]
    cases collisionLeft (integrate dt s) <;> cases collisionRight (integrate dt s) <;>
      simp [velocityXStep, hvx]
  · simp only [physics, scoreReset, resetFlag_collisions, ne_eq, hr, not_false_eq_true,
      if_true, velocityXStep, initialBallVelocity, mul_one]

/-- Both collision flags can be set in a step without score: in `narrowWorld`
both paddle tests hold and `reset` stays `0`. -/
theorem narrowWorld_both_flags :
    collisionLeft (integrate 0 narrowWorld) = true
      ∧ collisionRight (integrate 0 narrowWorld) = true
      ∧ resetFlag (integrate 0 narrowWorld) = 0 := by
  refine ⟨?_, ?_, ?_⟩
  · rw [collisionLeft_eq_true_iff]
    norm_num [integrate, narrowWorld, ballRadius, ballDiameter, halfPaddleWidth,
      paddleWidth, halfPaddleHeight, paddleHeight]
  · rw [collisionRight_eq_true_iff]
    norm_num [integrate, narrowWorld, ballRadius, ballDiameter, halfPaddleWidth,
      paddleWidth, halfPaddleHeight, paddleHeight]
  · rw [resetFlag_eq_zero_iff]
    norm_num [integrate, narrowWorld, ballRadius, ballDiameter]

end Collisions

/-! ## Vertical ranges of ball and paddles -/

section Ranges

variable {α : Type} [LinearOrderedField α]

/-- C8 (as stated, refuted): from the startup state (ball at the centre of the
800x600 field, velocity `(150, 150)`) a step with `dt = 5/2` scores for nobody
and ends with the ball at `y = 675`, above `height = 600`. -/
theorem C8_ball_leaves_field :
    0 < initialWorld.scrHeight
      ∧ 0 ≤ initialWorld.ballOffset.y
      ∧ initialWorld.ballOffset.y ≤ (initialWorld.scrHeight : ℚ)
      ∧ (0 : ℚ) ≤ 5 / 2
      ∧ (physics (5 / 2) initialWorld).ballOffset.y = 675
      ∧ ¬ ((physics (5 / 2) initialWorld).ballOffset.y
            ≤ ((physics (5 / 2) initialWorld).scrHeight : ℚ)) := by
  have h := physics_of_no_score (5 / 2) initialWorld
    (by norm_num [integrate, initialWorld, ballRadius, ballDiameter])
    (by norm_num [integrate, initialWorld, ballRadius, ballDiameter])
  rw [h]
  simp only [paddleCollision_ballOffset, fieldCollision_ballOffset,
    paddleCollision_scrHeight, fieldCollision_scrHeight]
  norm_num [integrate, initialWorld]

/-- C8 (amended): for a field of positive height, a ball with `y` in
`[0, height]` and `dt ≥ 0`: if a score condition holds after integration or the
integrated height `y + velocity.y * dt` is in `[0, height]`, then after the step
`ball.y` is in `[0, height]`; otherwise `ball.y` after the step is the
integrated height, outside `[0, height]`. -/
theorem C8_ball_vertical_range (dt : α) (s : World α)
    (_hH : 0 < s.scrHeight)
    (_hy : 0 ≤ s.ballOffset.y ∧ s.ballOffset.y ≤ (s.scrHeight : α))
    (_hdt : 0 ≤ dt) :
    ((((integrate dt s).ballOffset.x - ballRadius ≤ 0
          ∨ (integrate dt s).ballOffset.x + ballRadius ≥ ((integrate dt s).scrWidth : α))
        ∨ (0 ≤ s.ballOffset.y + s.ballVelocity.y * dt
          ∧ s.ballOffset.y + s.ballVelocity.y * dt ≤ (s.scrHeight : α)))
      → 0 ≤ (physics dt s).ballOffset.y
        ∧ (physics dt s).ballOffset.y ≤ ((physics dt s).scrHeight : α))
    ∧ (¬ (((integrate dt s).ballOffset.x - ballRadius ≤ 0
          ∨ (integrate dt s).ballOffset.x + ballRadius ≥ ((integrate dt s).scrWidth : α))
        ∨ (0 ≤ s.ballOffset.y + s.ballVelocity.y * dt
          ∧ s.ballOffset.y + s.ballVelocity.y * dt ≤ (s.scrHeight : α)))
      → (physics dt s).ballOffset.y = s.ballOffset.y + s.ballVelocity.y * dt
        ∧ ¬ (0 ≤ (physics dt s).ballOffset.y
          ∧ (physics dt s).ballOffset.y ≤ ((physics dt s).scrHeight : α))) := by
  have hH : (physics dt s).scrHeight = s.scrHeight := by
    unfold physics scoreReset; dsimp only
    split_ifs <;>
      simp only [paddleCollision_scrHeight, fieldCollision_scrHeight] <;> rfl
  have hnn : (0 : α) ≤ (s.scrHeight : α) := Nat.cast_nonneg _
  rw [hH]
  by_cases hs : (integrate dt s).ballOffset.x - ballRadius ≤ 0
      ∨ (integrate dt s).ballOffset.x + ballRadius ≥ ((integrate dt s).scrWidth : α)
  · have hp := (physics_positions_of_score dt s hs).1
    refine ⟨fun _ => ?_, fun h => absurd (Or.inl hs) h⟩
    rw [hp]
    constructor
    · exact div_nonneg hnn (by norm_num)
    · exact half_le_self hnn
  · have hs2 := hs
    push_neg at hs2
    have hp := (physics_positions_of_no_score dt s hs2.1 hs2.2).1
    have hi : (integrate dt s).ballOffset.y = s.ballOffset.y + s.ballVelocity.y * dt := rfl
    rw [hp, hi]
    refine ⟨fun h => ?_, fun h => ?_⟩
    · rcases h with h | h
      · exact absurd h hs
      · exact h
    · exact ⟨rfl, fun hin => h (Or.inr hin)⟩

/-- Witness of `C8_ball_vertical_range`: from the startup state with
`dt = 1/60` the integrated height is `302.5`. -/
theorem C8_ball_vertical_range_witness :
    0 ≤ (physics (1 / 60) initialWorld).ballOffset.y
      ∧ (physics (1 / 60) initialWorld).ballOffset.y
          ≤ ((physics (1 / 60) initialWorld).scrHeight : ℚ) :=
  (C8_ball_vertical_range (1 / 60) initialWorld (by decide)
    (by norm_num [initialWorld]) (by norm_num)).1
    (Or.inr (by norm_num [initialWorld]))

/-- C9 (as stated, refuted): from the startup state (both paddles at `y = 300`,
inside `[50, 550]`) with `W` pressed, a frame with `dt = 1/2` scores for nobody
and ends with the left paddle at `y = 600`, above `height - halfPaddleHeight =
550`. -/
theorem C9_paddle_leaves_range :
    halfPaddleHeight ≤ initialWorld.paddleOffsets0.y
      ∧ initialWorld.paddleOffsets0.y ≤ (initialWorld.scrHeight : ℚ) - halfPaddleHeight
      ∧ halfPaddleHeight ≤ initialWorld.paddleOffsets1.y
      ∧ initialWorld.paddleOffsets1.y ≤ (initialWorld.scrHeight : ℚ) - halfPaddleHeight
      ∧ (0 : ℚ) ≤ 1 / 2
      ∧ (frame keysW (1 / 2) initialWorld).paddleOffsets0.y = 600
      ∧ ¬ ((frame keysW (1 / 2) initialWorld).paddleOffsets0.y
            ≤ ((frame keysW (1 / 2) initialWorld).scrHeight : ℚ) - halfPaddleHeight) := by
  have hv : processInput keysW initialWorld
      = { initialWorld with paddleVelocities0 := 600 } := by
    simp [processInput, keysW, initialWorld, paddleBoundary, halfPaddleHeight, paddleHeight,
      offset, ballRadius, ballDiameter, paddleSpeed]
    norm_num
  have h := physics_of_no_score (1 / 2) (processInput keysW initialWorld)
    (by rw [hv]; norm_num [integrate, initialWorld, ballRadius, ballDiameter])
    (by rw [hv]; norm_num [integrate, initialWorld, ballRadius, ballDiameter])
  unfold frame
  rw [h, hv]
  simp only [paddleCollision_paddleOffsets0, fieldCollision_paddleOffsets0,
    paddleCollision_scrHeight, fieldCollision_scrHeight]
  norm_num [integrate, initialWorld, halfPaddleHeight, paddleHeight]

/-- C9 (amended): when both paddles are in
`[halfPaddleHeight, height - halfPaddleHeight]`, for every key state and every
`dt ≥ 0` with `paddleSpeed * dt ≤ offset` (that is `600 * dt ≤ 10`), after
`processInput` followed by one simulation step both paddles are again in
`[halfPaddleHeight, height - halfPaddleHeight]`. -/
theorem C9_paddle_vertical_range (keys : Keys) (dt : α) (s : World α)
    (h0 : halfPaddleHeight ≤ s.paddleOffsets0.y
      ∧ s.paddleOffsets0.y ≤ (s.scrHeight : α) - halfPaddleHeight)
    (h1 : halfPaddleHeight ≤ s.paddleOffsets1.y
      ∧ s.paddleOffsets1.y ≤ (s.scrHeight : α) - halfPaddleHeight)
    (hdt : 0 ≤ dt) (hsmall : paddleSpeed * dt ≤ offset) :
    (halfPaddleHeight ≤ (frame keys dt s).paddleOffsets0.y
      ∧ (frame keys dt s).paddleOffsets0.y
          ≤ ((frame keys dt s).scrHeight : α) - halfPaddleHeight)
    ∧ (halfPaddleHeight ≤ (frame keys dt s).paddleOffsets1.y
      ∧ (frame keys dt s).paddleOffsets1.y
          ≤ ((frame keys dt s).scrHeight : α) - halfPaddleHeight) := by
  obtain ⟨_, pH, p0, p1, _, _⟩ := processInput_positions keys s
  have hH : (frame keys dt s).scrHeight = s.scrHeight := by
    unfold frame physics scoreReset; dsimp only
    split_ifs <;>
      simp only [paddleCollision_scrHeight, fieldCollision_scrHeight] <;> exact pH
  have hps : (0 : α) ≤ paddleSpeed * dt := mul_nonneg (by norm_num [paddleSpeed]) hdt
  rw [hH]
  by_cases hs : (integrate dt (processInput keys s)).ballOffset.x - ballRadius ≤ 0
      ∨ (integrate dt (processInput keys s)).ballOffset.x + ballRadius
          ≥ ((integrate dt (processInput keys s)).scrWidth : α)
  · obtain ⟨_, q0, q1⟩ := physics_positions_of_score dt (processInput keys s) hs
    unfold frame
    rw [q0, q1, pH]
    dsimp only
    constructor <;> constructor <;> linarith
  · push_neg at hs
    obtain ⟨_, q0, q1⟩ := physics_positions_of_no_score dt (processInput keys s) hs.1 hs.2
    have e0 : (integrate dt (processInput keys s)).paddleOffsets0.y
        = s.paddleOffsets0.y + (processInput keys s).paddleVelocities0 * dt := by
      rw [← p0]; rfl
    have e1 : (integrate dt (processInput keys s)).paddleOffsets1.y
        = s.paddleOffsets1.y + (processInput keys s).paddleVelocities1 * dt := by
      rw [← p1]; rfl
    unfold frame
    rw [q0, q1, e0, e1]
    have hb : (paddleBoundary : α) = halfPaddleHeight + offset := rfl
    constructor
    · rcases processInput_velocity0 keys s with v | ⟨v, g⟩ | ⟨v, g⟩ <;> rw [v]
      · constructor <;> linarith
      · constructor <;> linarith
      · rw [neg_mul]; constructor <;> linarith
    · rcases processInput_velocity1 keys s with v | ⟨v, g⟩ | ⟨v, g⟩ <;> rw [v]
      · constructor <;> linarith
      · constructor <;> linarith
      · rw [neg_mul]; constructor <;> linarith

/-- Witness of `C9_paddle_vertical_range`: from the startup state with `W`
pressed and `dt = 1/60` both paddles end the frame inside `[50, 550]`. -/
theorem C9_paddle_vertical_range_witness :
    (halfPaddleHeight ≤ (frame keysW (1 / 60) initialWorld).paddleOffsets0.y
      ∧ (frame keysW (1 / 60) initialWorld).paddleOffsets0.y
          ≤ ((frame keysW (1 / 60) initialWorld).scrHeight : ℚ) - halfPaddleHeight)
    ∧ (halfPaddleHeight ≤ (frame keysW (1 / 60) initialWorld).paddleOffsets1.y
      ∧ (frame keysW (1 / 60) initialWorld).paddleOffsets1.y
          ≤ ((frame keysW (1 / 60) initialWorld).scrHeight : ℚ) - halfPaddleHeight) :=
  C9_paddle_vertical_range keysW (1 / 60) initialWorld
    (by norm_num [initialWorld, halfPaddleHeight, paddleHeight])
    (by norm_num [initialWorld, halfPaddleHeight, paddleHeight])
    (by norm_num)
    (by norm_num [paddleSpeed, offset, ballRadius, ballDiameter])

end Ranges

/-! ## Binary32 rounding of the speed increment -/

section Binary32

/-- The spacing is a positive power of two. -/
theorem ulp32_pos (n : Nat) : 0 < ulp32 n := Nat.pow_pos (by decide)

/-- The spacing in the binade `[2 ^ e, 2 ^ (e + 1))`. -/
theorem ulp32_of_binade (n e : Nat) (h1 : 2 ^ e ≤ n) (h2 : n < 2 ^ (e + 1)) :
    ulp32 n = 2 ^ (e - 23) := by
  have hn : n ≠ 0 := by
    have : 0 < 2 ^ e := Nat.pow_pos (by decide)
    omega
  have a : e ≤ n.log2 := (Nat.le_log2 hn).2 h1
  have b : n.log2 < e + 1 := (Nat.log2_lt hn).2 h2
  have : n.log2 = e := by omega
  rw [ulp32, this]

/-- Rounding never goes below the multiple of the spacing just under `n`. -/
theorem floor_le_roundNat32 (n : Nat) : n / ulp32 n * ulp32 n ≤ roundNat32 n := by
  unfold roundNat32 roundToMultiple
  dsimp only
  split_ifs <;> first | exact le_refl _ | exact Nat.mul_le_mul_right _ (Nat.le_succ _)

/-- Rounding leaves a binary32 magnitude unchanged. -/
theorem roundNat32_of_rep (n : Nat) (h : n % ulp32 n = 0) : roundNat32 n = n := by
  unfold roundNat32 roundToMultiple
  dsimp only
  rw [h, if_pos (by simpa using ulp32_pos n)]
  exact Nat.div_mul_cancel (Nat.dvd_of_mod_eq_zero h)

/-- Rounding is bounded below by every binary32 magnitude under its argument. -/
theorem le_roundNat32 (a b : Nat) (ha : a % ulp32 a = 0) (hab : a ≤ b) : a ≤ roundNat32 b := by
  refine le_trans ?_ (floor_le_roundNat32 b)
  rcases Nat.eq_zero_or_pos a with h0 | hpos
  · subst h0; exact Nat.zero_le _
  have ha0 : a ≠ 0 := by omega
  have hb0 : b ≠ 0 := by omega
  have hmono : a.log2 ≤ b.log2 :=
    (Nat.le_log2 hb0).2 (le_trans (Nat.log2_self_le ha0) hab)
  rcases Nat.eq_or_lt_of_le hmono with he | hlt
  · have hq : ulp32 b = ulp32 a := by rw [ulp32, ulp32, he]
    rw [hq]
    obtain ⟨c, hc⟩ := Nat.dvd_of_mod_eq_zero ha
    have hdiv : a / ulp32 a ≤ b / ulp32 a := Nat.div_le_div_right hab
    calc a = a / ulp32 a * ulp32 a := (Nat.div_mul_cancel (Nat.dvd_of_mod_eq_zero ha)).symm
      _ ≤ b / ulp32 a * ulp32 a := Nat.mul_le_mul_right _ hdiv
  · have h1 : a < 2 ^ (a.log2 + 1) := Nat.lt_log2_self
    have h2 : 2 ^ (a.log2 + 1) ≤ 2 ^ b.log2 := Nat.pow_le_pow_right (by decide) hlt
    have h3 : 2 ^ b.log2 ≤ b := Nat.log2_self_le hb0
    have hd : ulp32 b ∣ 2 ^ b.log2 := by
      unfold ulp32
      exact pow_dvd_pow 2 (Nat.sub_le _ _)
    have h4 : 2 ^ b.log2 ≤ b / ulp32 b * ulp32 b := by
      calc 2 ^ b.log2 = 2 ^ b.log2 / ulp32 b * ulp32 b := (Nat.div_mul_cancel hd).symm
        _ ≤ b / ulp32 b * ulp32 b := Nat.mul_le_mul_right _ (Nat.div_le_div_right h3)
    omega

/-- Rounding in the binade `[2 ^ e, 2 ^ (e + 1))`. -/
theorem roundNat32_of_binade (n e : Nat) (h1 : 2 ^ e ≤ n) (h2 : n < 2 ^ (e + 1)) :
    roundNat32 n = roundToMultiple (2 ^ (e - 23)) n := by
  rw [roundNat32, ulp32_of_binade n e h1 h2]

/-- Rounding of a non-negative value. -/
theorem roundF32_natCast (n : Nat) : roundF32 (n : Int) = (roundNat32 n : Int) := by
  simp [roundF32]

/-- Rounding is symmetric in the sign. -/
theorem roundF32_neg_natCast (n : Nat) : roundF32 (-(n : Int)) = -(roundNat32 n : Int) := by
  rcases Nat.eq_zero_or_pos n with h | h
  · subst h
    simp [roundF32, roundNat32_of_rep 0 (Nat.zero_mod _)]
  · have : ¬ (0 : Int) ≤ -(n : Int) := by omega
    simp [roundF32, this]

/-- Rounding leaves a binary32 number unchanged. -/
theorem roundF32_of_isF32 (k : Int) (h : isF32 k) : roundF32 k = k := by
  unfold roundF32
  rw [roundNat32_of_rep _ h.1]
  split_ifs with h0 <;> omega

/-- An integer of magnitude below `2 ^ 24` is a finite binary32 number. -/
theorem isF32_intUnits (z : Int) (hz : z.natAbs < 2 ^ 24) : isF32 (z * 2 ^ 149) := by
  have hn : (z * 2 ^ 149).natAbs = z.natAbs * 2 ^ 149 := by
    rw [Int.natAbs_mul, Int.natAbs_pow]; rfl
  unfold isF32
  rw [hn]
  constructor
  · rcases Nat.eq_zero_or_pos z.natAbs with h0 | hpos
    · rw [h0]; simp
    · have hj : z.natAbs ≠ 0 := by omega
      have hl : z.natAbs.log2 < 24 := (Nat.log2_lt hj).2 hz
      have h1 : 2 ^ (z.natAbs.log2 + 149) ≤ z.natAbs * 2 ^ 149 := by
        rw [Nat.pow_add]
        exact Nat.mul_le_mul_right _ (Nat.log2_self_le hj)
      have h2 : z.natAbs * 2 ^ 149 < 2 ^ (z.natAbs.log2 + 149 + 1) := by
        have e : z.natAbs.log2 + 149 + 1 = (z.natAbs.log2 + 1) + 149 := by omega
        rw [e, Nat.pow_add]
        exact Nat.mul_lt_mul_of_pos_right Nat.lt_log2_self (Nat.pow_pos (by decide))
      rw [ulp32_of_binade _ _ h1 h2]
      apply Nat.mod_eq_zero_of_dvd
      exact Dvd.dvd.mul_left (pow_dvd_pow 2 (by omega)) _
  · unfold maxF32
    exact Nat.mul_le_mul (by omega) (Nat.pow_le_pow_right (by decide) (by decide))

/-- With both flags set and no score the step computes
`fl (fl (-|vx| + 5.0f) - 5.0f)`. -/
theorem ballVelocityX32_both (vx : Int) :
    ballVelocityX32 true true 0 vx
      = roundF32 (roundF32 (-|vx| + 5 * 2 ^ 149) - 5 * 2 ^ 149) := by
  simp [ballVelocityX32, velocityXStep]

/-- C10 (as stated, refuted): `velocity.x = 0.7f = 11744051 * 2 ^ (-24)` is a
binary32 number; with both collision flags set and no score, line 536 rounds
`-0.7f + 5.0f` up to `72142032 * 2 ^ (-24)` and line 540 leaves
`-11744048 * 2 ^ (-24) = -0.69999981`, so `|velocity.x|` after the step is
smaller than before. -/
theorem C10_both_flags_speed_drops :
    isF32 (11744051 * 2 ^ 125)
      ∧ ballVelocityX32 true true 0 (11744051 * 2 ^ 125) = -(11744048 * 2 ^ 125)
      ∧ |ballVelocityX32 true true 0 (11744051 * 2 ^ 125)| < |(11744051 * 2 ^ 125 : Int)| := by
  have hA : roundNat32 (72142029 * 2 ^ 125) = 72142032 * 2 ^ 125 := by
    rw [roundNat32_of_binade _ 151 (by decide) (by decide)]; decide
  have hB : roundNat32 (11744048 * 2 ^ 125) = 11744048 * 2 ^ 125 := by
    rw [roundNat32_of_binade _ 148 (by decide) (by decide)]; decide
  have hU : ulp32 (11744051 * 2 ^ 125) = 2 ^ 125 :=
    ulp32_of_binade _ 148 (by decide) (by decide)
  have hv : |(11744051 * 2 ^ 125 : Int)| = 11744051 * 2 ^ 125 :=
    abs_of_nonneg (by positivity)
  have e1 : (-(11744051 * 2 ^ 125) + 5 * 2 ^ 149 : Int) = ((72142029 * 2 ^ 125 : Nat) : Int) := by
    norm_num
  have e2 : (((72142032 * 2 ^ 125 : Nat) : Int) - 5 * 2 ^ 149)
      = -((11744048 * 2 ^ 125 : Nat) : Int) := by
    norm_num
  have hres : ballVelocityX32 true true 0 (11744051 * 2 ^ 125) = -(11744048 * 2 ^ 125) := by
    rw [ballVelocityX32_both, hv, e1, roundF32_natCast, hA, e2, roundF32_neg_natCast, hB]
    norm_num
  refine ⟨⟨?_, ?_⟩, hres, ?_⟩
  · have : (11744051 * 2 ^ 125 : Int).natAbs = 11744051 * 2 ^ 125 := by
      rw [Int.natAbs_mul, Int.natAbs_pow]; rfl
    rw [this, hU]; decide
  · have : (11744051 * 2 ^ 125 : Int).natAbs = 11744051 * 2 ^ 125 := by
      rw [Int.natAbs_mul, Int.natAbs_pow]; rfl
    rw [this]; decide
  · rw [hres, hv, abs_neg, abs_of_nonneg (by positivity)]
    norm_num

/-- C10 (amended): for a finite binary32 `velocity.x` and a step without score
(`reset = 0`): when at most one collision flag is set, `|velocity.x|` after the
step is at least `|velocity.x|` before it; when both flags are set, the step
leaves `velocity.x = -|velocity.x|` (same speed) provided `-|velocity.x| + 5.0f`
is a binary32 number, and this is so for every integer speed below `2 ^ 24`. -/
theorem C10_rally_speed_binary32 (collisionLeft collisionRight : Bool) (vx : Int)
    (hvx : isF32 vx) :
    ((collisionLeft && collisionRight) = false
        → |vx| ≤ |ballVelocityX32 collisionLeft collisionRight 0 vx|)
    ∧ (isF32 (-|vx| + 5 * 2 ^ 149)
        → ballVelocityX32 true true 0 vx = -|vx|
          ∧ |vx| ≤ |ballVelocityX32 true true 0 vx|)
    ∧ (∀ j : Nat, j < 2 ^ 24 → |vx| = j * 2 ^ 149
        → ballVelocityX32 true true 0 vx = -|vx|
          ∧ |vx| ≤ |ballVelocityX32 true true 0 vx|) := by
  have habs : |vx| = (vx.natAbs : Int) := Int.abs_eq_natAbs vx
  have hF : (5 * 2 ^ 149 : Int) = ((5 * 2 ^ 149 : Nat) : Int) := by norm_cast
  have hge : vx.natAbs ≤ roundNat32 (vx.natAbs + 5 * 2 ^ 149) :=
    le_roundNat32 _ _ hvx.1 (Nat.le_add_right _ _)
  have hboth : isF32 (-|vx| + 5 * 2 ^ 149)
      → ballVelocityX32 true true 0 vx = -|vx|
        ∧ |vx| ≤ |ballVelocityX32 true true 0 vx| := by
    intro hex
    have h : ballVelocityX32 true true 0 vx = -|vx| := by
      rw [ballVelocityX32_both, roundF32_of_isF32 _ hex, habs]
      have e : (-(vx.natAbs : Int) + 5 * 2 ^ 149 - 5 * 2 ^ 149) = -((vx.natAbs : Nat) : Int) := by
        ring
      rw [e, roundF32_neg_natCast, roundNat32_of_rep _ hvx.1]
    exact ⟨h, by rw [h, abs_neg, abs_abs]⟩
  refine ⟨?_, hboth, ?_⟩
  · intro hflags
    cases collisionLeft <;> cases collisionRight
    · simp [ballVelocityX32, velocityXStep]
    · have e : (-|vx| - 5 * 2 ^ 149 : Int) = -((vx.natAbs + 5 * 2 ^ 149 : Nat) : Int) := by
        rw [habs]; push_cast; ring
      have : ballVelocityX32 false true 0 vx
          = -((roundNat32 (vx.natAbs + 5 * 2 ^ 149) : Nat) : Int) := by
        simp only [ballVelocityX32, velocityXStep, if_true, Bool.false_eq_true, if_false,
          ne_eq, not_true_eq_false]
        rw [e, roundF32_neg_natCast]
      rw [this, abs_neg, habs, Int.abs_natCast]
      exact_mod_cast hge
    · have e : (|vx| + 5 * 2 ^ 149 : Int) = ((vx.natAbs + 5 * 2 ^ 149 : Nat) : Int) := by
        rw [habs]; push_cast; ring
      have : ballVelocityX32 true false 0 vx
          = ((roundNat32 (vx.natAbs + 5 * 2 ^ 149) : Nat) : Int) := by
        simp only [ballVelocityX32, velocityXStep, if_true, Bool.false_eq_true, if_false,
          ne_eq, not_true_eq_false]
        rw [e, roundF32_natCast]
      rw [this, habs, Int.abs_natCast]
      exact_mod_cast hge
    · exact absurd hflags (by decide)
  · intro j hj hvj
    apply hboth
    have e : (-|vx| + 5 * 2 ^ 149 : Int) = (5 - (j : Int)) * 2 ^ 149 := by
      rw [hvj]; ring
    rw [e]
    exact isF32_intUnits _ (by omega)

/-- Witness of `C10_rally_speed_binary32`: at the initial speed `150.0f` a left
paddle hit does not lower the speed, and a hit of both paddles leaves `-150.0f`. -/
theorem C10_rally_speed_binary32_witness :
    isF32 (150 * 2 ^ 149)
      ∧ |(150 * 2 ^ 149 : Int)| ≤ |ballVelocityX32 true false 0 (150 * 2 ^ 149)|
      ∧ ballVelocityX32 true true 0 (150 * 2 ^ 149) = -|(150 * 2 ^ 149 : Int)| :=
  have h0 : isF32 (150 * 2 ^ 149) := isF32_intUnits 150 (by decide)
  have ha : |(150 * 2 ^ 149 : Int)| = ((150 : Nat) : Int) * 2 ^ 149 := by
    rw [abs_of_nonneg (by positivity)]; norm_num
  ⟨h0, (C10_rally_speed_binary32 true false (150 * 2 ^ 149) h0).1 rfl,
    ((C10_rally_speed_binary32 true true (150 * 2 ^ 149) h0).2.2 150 (by decide) ha).1⟩

end Binary32

section MeshLemmas

variable {α : Type} [Field α]

theorem circleBody_ok (T : Trig α) (n : Nat) (r pi : α) (i : Nat) (st : LoopState α)
    (hi : i * 3 + 2 < 2 ^ 31) (hv : (i + 1) * 2 + 1 < st.vertices.length)
    (hx : i * 3 + 2 < st.indices.length) :
    circleBody T n r pi i st = .ok
      ⟨(st.vertices.set ((i + 1) * 2) (some (r * T.cosf st.theta))).set ((i + 1) * 2 + 1)
          (some (r * T.sinf st.theta)),
        ((st.indices.set (i * 3) (some 0)).set (i * 3 + 1) (some (i + 1))).set (i * 3 + 2)
          (some (i + 2)),
        st.theta + (2 * pi) / (n : α)⟩ := by
  have a1 : (i + 1) * 2 < 2 ^ 31 := by omega
  have a2 : (i + 1) * 2 + 1 < 2 ^ 31 := by omega
  have a3 : i * 3 < 2 ^ 31 := by omega
  have a4 : i * 3 + 1 < 2 ^ 31 := by omega
  have b1 : (i + 1) * 2 < st.vertices.length := by omega
  have b3 : i * 3 < st.indices.length := by omega
  have b4 : i * 3 + 1 < st.indices.length := by omega
  simp only [circleBody, int32, store, bind, Except.bind, add_zero, a1, a2, a3, a4, hi, b1,
    hv, b3, b4, hx, if_true, List.length_set]

theorem circleLoop_spec (T : Trig α) (n : Nat) (r pi : α) :
    ∀ (rem i : Nat) (st : LoopState α),
      (i + rem) * 3 ≤ 2 ^ 31 →
      (i + rem + 1) * 2 ≤ st.vertices.length →
      (i + rem) * 3 ≤ st.indices.length →
      ∃ st', circleLoop T n r pi rem i st = .ok st'
        ∧ st'.vertices.length = st.vertices.length
        ∧ st'.indices.length = st.indices.length
        ∧ (∀ j, j < (i + 1) * 2 → st'.vertices[j]? = st.vertices[j]?)
        ∧ (∀ d, d < rem →
            st'.vertices[(i + d + 1) * 2]?
                = some (some (r * T.cosf (st.theta + (d : α) * ((2 * pi) / (n : α)))))
            ∧ st'.vertices[(i + d + 1) * 2 + 1]?
                = some (some (r * T.sinf (st.theta + (d : α) * ((2 * pi) / (n : α))))))
        ∧ (∀ j, j < i * 3 → st'.indices[j]? = st.indices[j]?)
        ∧ (∀ d, d < rem →
            st'.indices[(i + d) * 3]? = some (some 0)
            ∧ st'.indices[(i + d) * 3 + 1]? = some (some (i + d + 1))
            ∧ st'.indices[(i + d) * 3 + 2]? = some (some (i + d + 2))) := by
  intro rem
  induction rem with
  | zero =>
    intro i st _ _ _
    exact ⟨st, rfl, rfl, rfl, fun _ _ => rfl, fun d hd => absurd hd (Nat.not_lt_zero d),
      fun _ _ => rfl, fun d hd => absurd hd (Nat.not_lt_zero d)⟩
  | succ rem ih =>
    intro i st hi hv hx
    have hb := circleBody_ok T n r pi i st (by omega) (by omega) (by omega)
    obtain ⟨st', hl, hvl, hxl, hvp, hvd, hxp, hxd⟩ := ih (i + 1)
      ⟨(st.vertices.set ((i + 1) * 2) (some (r * T.cosf st.theta))).set ((i + 1) * 2 + 1)
          (some (r * T.sinf st.theta)),
        ((st.indices.set (i * 3) (some 0)).set (i * 3 + 1) (some (i + 1))).set (i * 3 + 2)
          (some (i + 2)),
        st.theta + (2 * pi) / (n : α)⟩
      (by omega) (by simp only [List.length_set]; omega) (by simp only [List.length_set]; omega)
    simp only [List.length_set] at hvl hxl
    dsimp only at hvp hvd hxp hxd
    refine ⟨st', ?_, hvl, hxl, ?_, ?_, ?_, ?_⟩
    · simp only [circleLoop, hb, hl]
    · intro j hj
      rw [hvp j (by omega), List.getElem?_set_ne (by omega), List.getElem?_set_ne (by omega)]
    · intro d hd
      cases d with
      | zero =>
        simp only [Nat.add_zero]
        constructor
        · rw [hvp _ (by omega), List.getElem?_set_ne (by omega),
            List.getElem?_set_self (by omega)]
          simp
        · rw [hvp _ (by omega), List.getElem?_set_self (by simp only [List.length_set]; omega)]
          simp
      | succ d =>
        have e : i + (d + 1) + 1 = i + 1 + d + 1 := by omega
        have t : st.theta + (2 * pi) / (n : α) + (d : α) * ((2 * pi) / (n : α))
            = st.theta + ((d + 1 : Nat) : α) * ((2 * pi) / (n : α)) := by
          push_cast; ring
        rw [e, ← t]
        exact hvd d (by omega)
    · intro j hj
      rw [hxp j (by omega), List.getElem?_set_ne (by omega), List.getElem?_set_ne (by omega),
        List.getElem?_set_ne (by omega)]
    · intro d hd
      cases d with
      | zero =>
        simp only [Nat.add_zero]
        refine ⟨?_, ?_, ?_⟩
        · rw [hxp _ (by omega), List.getElem?_set_ne (by omega),
            List.getElem?_set_ne (by omega), List.getElem?_set_self (by omega)]
        · rw [hxp _ (by omega), List.getElem?_set_ne (by omega),
            List.getElem?_set_self (by simp only [List.length_set]; omega)]
        · rw [hxp _ (by omega),
            List.getElem?_set_self (by simp only [List.length_set]; omega)]
      | succ d =>
        have e : i + (d + 1) = i + 1 + d := by omega
        rw [e]
        exact hxd d (by omega)

/-- What `gen2DCircleArray` returns when no index expression overflows. -/
theorem gen2DCircleArray_spec (T : Trig α) (n : Nat) (r : α) (h1 : 1 ≤ n)
    (hb : n * 3 ≤ 2 ^ 31) :
    ∃ m, gen2DCircleArray T n r = .ok m
      ∧ m.vertices.length = (n + 1) * 2
      ∧ m.indices.length = n * 3
      ∧ m.vertices[0]? = some (some 0)
      ∧ m.vertices[1]? = some (some 0)
      ∧ (∀ d, d < n →
          m.vertices[(d + 1) * 2]?
              = some (some (r * T.cosf (0 + (d : α) * ((2 * (4 * T.atanf 1)) / (n : α)))))
          ∧ m.vertices[(d + 1) * 2 + 1]?
              = some (some (r * T.sinf (0 + (d : α) * ((2 * (4 * T.atanf 1)) / (n : α))))))
      ∧ (∀ d, d < n →
          m.indices[d * 3]? = some (some 0)
          ∧ m.indices[d * 3 + 1]? = some (some (d + 1))
          ∧ m.indices[d * 3 + 2]? = some (some (if d + 1 = n then 1 else d + 2))) := by
  have e1 : u32 (u32 (n + 1) * 2) = (n + 1) * 2 := by unfold u32; omega
  have e2 : u32 (n * 3) = n * 3 := by unfold u32; omega
  have e3 : wrapAroundIndex n = (n - 1) * 3 + 2 := by
    unfold wrapAroundIndex u32; omega
  obtain ⟨st', hl, hvl, hxl, hvp, hvd, hxp, hxd⟩ := circleLoop_spec T n r (4 * T.atanf 1) n 0
    ⟨((alloc α ((n + 1) * 2)).set 0 (some 0)).set 1 (some 0), alloc Nat (n * 3), 0⟩
    (by omega) (by simp only [alloc, List.length_set, List.length_replicate]; omega)
    (by simp only [alloc, List.length_replicate]; omega)
  simp only [alloc, List.length_set, List.length_replicate, Nat.zero_add] at hl hvl hxl hvp hvd hxd
  have g0 : 0 < (n + 1) * 2 := by omega
  have g1 : 1 < (n + 1) * 2 := by omega
  have g2 : (n - 1) * 3 + 2 < st'.indices.length := by omega
  refine ⟨⟨st'.vertices, st'.indices.set ((n - 1) * 3 + 2) (some 1)⟩, ?_, hvl, ?_, ?_, ?_,
    hvd, ?_⟩
  · simp only [gen2DCircleArray, e1, e2, e3, store, alloc, bind, Except.bind,
      List.length_replicate, List.length_set, g0, g1, if_true, hl, g2]
  · simp only [List.length_set, hxl]
  · rw [hvp 0 (by omega), List.getElem?_set_ne (by omega),
      List.getElem?_set_self (by simp only [List.length_replicate]; omega)]
  · rw [hvp 1 (by omega),
      List.getElem?_set_self (by simp only [List.length_set, List.length_replicate]; omega)]
  · intro d hd
    obtain ⟨a, b, c⟩ := hxd d hd
    refine ⟨?_, ?_, ?_⟩
    · rw [List.getElem?_set_ne (by omega), a]
    · rw [List.getElem?_set_ne (by omega), b]
    · by_cases hlast : d + 1 = n
      · have e : d * 3 + 2 = (n - 1) * 3 + 2 := by omega
        rw [if_pos hlast, e, List.getElem?_set_self g2]
      · rw [if_neg hlast, List.getElem?_set_ne (by omega), c]

/-- When the index block has two cells only while the vertex block has room for
the first rim vertex, the first loop iteration writes `indices[2]` outside the
block. -/
theorem gen2DCircleArray_short_indices (T : Trig α) (n k : Nat) (r : α) (hn : n = k + 1)
    (hv : 4 ≤ u32 (u32 (n + 1) * 2)) (hx : u32 (n * 3) = 2) :
    gen2DCircleArray T n r = .error .outOfBounds := by
  subst hn
  have g0 : 0 < u32 (u32 (k + 1 + 1) * 2) := by omega
  have g1 : 1 < u32 (u32 (k + 1 + 1) * 2) := by omega
  have g2 : 2 < u32 (u32 (k + 1 + 1) * 2) := by omega
  have g3 : 3 < u32 (u32 (k + 1 + 1) * 2) := by omega
  unfold gen2DCircleArray
  simp only [store, alloc, bind, Except.bind, List.length_replicate, List.length_set, g0, g1,
    if_true, hx]
  simp [circleLoop, circleBody, int32, store, bind, Except.bind, g2, g3]

/-- At `noTriangles = 0` the subtraction `noTriangles - 1` wraps and the index
of line 285 is `2 ^ 32 - 1`. -/
theorem wrapAroundIndex_zero : wrapAroundIndex 0 = 2 ^ 32 - 1 := by decide

/-- At `noTriangles = 0` the index block has no cell, the loop does not run and
line 285 writes outside the block. -/
theorem gen2DCircleArray_zero (T : Trig α) (r : α) :
    gen2DCircleArray T 0 r = .error .outOfBounds := by
  have e : wrapAroundIndex 0 = 4294967295 := by decide
  simp [gen2DCircleArray, circleLoop, store, alloc, u32, bind, Except.bind, e]

end MeshLemmas

/-! ## Circle mesh -/

section MeshClaims

variable {α : Type} [Field α]

/-- C2 (as stated, refuted): `n = 1431655766` is at least 3, but `3 * n`
wraps to `2` in `unsigned int` arithmetic, the index block gets two cells and
the first loop iteration writes `indices[2]` outside it: no mesh with `3 * n`
indices is produced. -/
theorem C2_index_count_overflows :
    3 ≤ 1431655766
      ∧ u32 (1431655766 * 3) = 2
      ∧ gen2DCircleArray ratTrig 1431655766 (1 / 2 : ℚ) = .error .outOfBounds :=
  ⟨by decide, by decide,
    gen2DCircleArray_short_indices ratTrig 1431655766 1431655765 (1 / 2) rfl (by decide)
      (by decide)⟩

/-- C2 (amended): for every `n` with `3 ≤ n` and `3 * n ≤ 2 ^ 31`
(`n ≤ 715827882`) and every radius, `gen2DCircleArray` returns a mesh with
`2 * (n + 1)` floats (`n + 1` vertices) and `3 * n` indices; vertex 0 is
`(0, 0)`; for `1 ≤ i < n` the `i`-th triangle is `(0, i, i + 1)`; the `n`-th
triangle is `(0, n, 1)`; every cell of the returned index array holds an index
`≤ n`, which refers to an existing vertex. -/
theorem C2_mesh_shape (T : Trig α) (n : Nat) (r : α) (h3 : 3 ≤ n) (hb : n * 3 ≤ 2 ^ 31) :
    ∃ m, gen2DCircleArray T n r = .ok m
      ∧ m.vertices.length = 2 * (n + 1)
      ∧ m.indices.length = 3 * n
      ∧ (m.vertices[0]? = some (some 0) ∧ m.vertices[1]? = some (some 0))
      ∧ (∀ i, 1 ≤ i → i < n →
          m.indices[3 * (i - 1)]? = some (some 0)
          ∧ m.indices[3 * (i - 1) + 1]? = some (some i)
          ∧ m.indices[3 * (i - 1) + 2]? = some (some (i + 1)))
      ∧ (m.indices[3 * (n - 1)]? = some (some 0)
          ∧ m.indices[3 * (n - 1) + 1]? = some (some n)
          ∧ m.indices[3 * (n - 1) + 2]? = some (some 1))
      ∧ (∀ j, j < 3 * n →
          ∃ v, m.indices[j]? = some (some v) ∧ v ≤ n ∧ 2 * v + 1 < m.vertices.length) := by
  obtain ⟨m, hm, hvl, hxl, v0, v1, _, hx⟩ := gen2DCircleArray_spec T n r (by omega) hb
  refine ⟨m, hm, by omega, by omega, ⟨v0, v1⟩, ?_, ?_, ?_⟩
  · intro i hi1 hin
    obtain ⟨a, b, c⟩ := hx (i - 1) (by omega)
    have e : (i - 1) * 3 = 3 * (i - 1) := Nat.mul_comm _ _
    have e1 : i - 1 + 1 = i := by omega
    have e2 : i - 1 + 2 = i + 1 := by omega
    rw [e, e1] at b
    rw [e, if_neg (by omega), e2] at c
    rw [e] at a
    exact ⟨a, b, c⟩
  · obtain ⟨a, b, c⟩ := hx (n - 1) (by omega)
    have e : (n - 1) * 3 = 3 * (n - 1) := Nat.mul_comm _ _
    have e1 : n - 1 + 1 = n := by omega
    rw [e, e1] at b
    rw [e, if_pos e1] at c
    rw [e] at a
    exact ⟨a, b, c⟩
  · intro j hj
    obtain ⟨d, c, hc, rfl⟩ : ∃ d c, c < 3 ∧ j = d * 3 + c :=
      ⟨j / 3, j % 3, Nat.mod_lt _ (by norm_num), by omega⟩
    obtain ⟨a, b, c3⟩ := hx d (by omega)
    interval_cases c
    · exact ⟨0, a, by omega, by omega⟩
    · exact ⟨d + 1, b, by omega, by omega⟩
    · refine ⟨_, c3, ?_, ?_⟩ <;> split_ifs <;> omega

/-- Witness of `C2_mesh_shape`: three triangles, radius `1/2`. -/
theorem C2_mesh_shape_witness :
    ∃ m, gen2DCircleArray ratTrig 3 (1 / 2 : ℚ) = .ok m
      ∧ m.vertices.length = 8
      ∧ m.indices.length = 9
      ∧ m.indices[8]? = some (some 1) := by
  obtain ⟨m, hm, hv, hx, _, _, hl, _⟩ :=
    C2_mesh_shape ratTrig 3 (1 / 2 : ℚ) (by decide) (by decide)
  exact ⟨m, hm, hv, hx, hl.2.2⟩

/-- C3 (as stated, refuted): `triangleCount = 2` is not rejected; a mesh of
three vertices and two triangles `(0, 1, 2)`, `(0, 2, 1)` is returned. -/
theorem C3_two_triangles_not_rejected :
    ∃ m, gen2DCircleArray ratTrig 2 (1 / 2 : ℚ) = .ok m
      ∧ m.vertices.length = 6
      ∧ m.indices = [some 0, some 1, some 2, some 0, some 2, some 1] :=
  ⟨_, rfl, rfl, rfl⟩

/-- C3 (amended): for `triangleCount` 1 or 2 `gen2DCircleArray` reports
nothing and returns a mesh of `triangleCount + 1` vertices and
`3 * triangleCount` indices whose last triangle is `(0, triangleCount, 1)`. -/
theorem C3_small_counts_accepted (T : Trig α) (n : Nat) (r : α) (h : n = 1 ∨ n = 2) :
    ∃ m, gen2DCircleArray T n r = .ok m
      ∧ m.vertices.length = 2 * (n + 1)
      ∧ m.indices.length = 3 * n
      ∧ m.indices[3 * (n - 1)]? = some (some 0)
      ∧ m.indices[3 * (n - 1) + 1]? = some (some n)
      ∧ m.indices[3 * (n - 1) + 2]? = some (some 1) := by
  obtain ⟨m, hm, hvl, hxl, _, _, _, hx⟩ :=
    gen2DCircleArray_spec T n r (by omega) (by rcases h with h | h <;> subst h <;> decide)
  obtain ⟨a, b, c⟩ := hx (n - 1) (by omega)
  have e : (n - 1) * 3 = 3 * (n - 1) := Nat.mul_comm _ _
  have e1 : n - 1 + 1 = n := by omega
  rw [e, e1] at b
  rw [e, if_pos e1] at c
  rw [e] at a
  exact ⟨m, hm, by omega, by omega, a, b, c⟩

/-- Witness of `C3_small_counts_accepted`: one triangle gives `(0, 1, 1)`. -/
theorem C3_small_counts_accepted_witness :
    ∃ m, gen2DCircleArray ratTrig 1 (1 / 2 : ℚ) = .ok m
      ∧ m.vertices.length = 4
      ∧ m.indices.length = 3
      ∧ m.indices[0]? = some (some 0)
      ∧ m.indices[1]? = some (some 1)
      ∧ m.indices[2]? = some (some 1) :=
  C3_small_counts_accepted ratTrig 1 (1 / 2 : ℚ) (Or.inl rfl)

/-- C7 (as stated, refuted): for `n = 2147483647 ≥ 3` and `r = 1/2 > 0` the
size `(n + 1) * 2` of the vertex block wraps to `0` in `unsigned int`
arithmetic and already `vertices[0] = 0.0f` is outside the block: no vertex is
produced. -/
theorem C7_vertex_count_overflows :
    3 ≤ 2147483647
      ∧ (0 : ℝ) < 1 / 2
      ∧ u32 (u32 (2147483647 + 1) * 2) = 0
      ∧ gen2DCircleArray (⟨Real.cos, Real.sin, Real.arctan⟩ : Trig ℝ) 2147483647 (1 / 2 : ℝ)
          = .error .outOfBounds := by
  refine ⟨by decide, by norm_num, by decide, ?_⟩
  simp [gen2DCircleArray, store, alloc, u32, bind, Except.bind]

/-- C7 (amended): over the reals, with `cosf`, `sinf`, `atanf` the real cosine,
sine and arctangent, for every `n` with `3 ≤ n` and `3 * n ≤ 2 ^ 31`
(`n ≤ 715827882`) and every `r > 0`, vertex `i` (`1 ≤ i ≤ n`) of the mesh
returned by `gen2DCircleArray` is `(r * cos θ, r * sin θ)` with
`θ = (i - 1) * 2π / n`. -/
theorem C7_vertex_positions (n : Nat) (r : ℝ) (h3 : 3 ≤ n) (hb : n * 3 ≤ 2 ^ 31)
    (_hr : 0 < r) :
    ∃ m, gen2DCircleArray (⟨Real.cos, Real.sin, Real.arctan⟩ : Trig ℝ) n r = .ok m
      ∧ ∀ i, 1 ≤ i → i ≤ n →
          m.vertices[2 * i]? = some (some (r * Real.cos (((i : ℝ) - 1) * (2 * Real.pi) / n)))
          ∧ m.vertices[2 * i + 1]?
              = some (some (r * Real.sin (((i : ℝ) - 1) * (2 * Real.pi) / n))) := by
  obtain ⟨m, hm, _, _, _, _, hv, _⟩ :=
    gen2DCircleArray_spec (⟨Real.cos, Real.sin, Real.arctan⟩ : Trig ℝ) n r (by omega) hb
  refine ⟨m, hm, ?_⟩
  intro i hi1 hin
  obtain ⟨d, rfl⟩ : ∃ d, i = d + 1 := ⟨i - 1, by omega⟩
  obtain ⟨a, b⟩ := hv d (by omega)
  have e : (d + 1) * 2 = 2 * (d + 1) := Nat.mul_comm _ _
  have t : (0 : ℝ) + (d : ℝ) * ((2 * (4 * Real.arctan 1)) / (n : ℝ))
      = (((d + 1 : Nat) : ℝ) - 1) * (2 * Real.pi) / n := by
    rw [Real.arctan_one]; push_cast; ring
  dsimp only at a b
  rw [e, t] at a b
  exact ⟨a, b⟩

/-- Witness of `C7_vertex_positions`: for `n = 20`, `r = 0.5` vertex 1 is
`(0.5, 0.0)` and vertex 6 is `(0.0, 0.5)`. -/
theorem C7_vertex_positions_witness :
    ∃ m, gen2DCircleArray (⟨Real.cos, Real.sin, Real.arctan⟩ : Trig ℝ) 20 (1 / 2 : ℝ) = .ok m
      ∧ (m.vertices[2]? = some (some (1 / 2)) ∧ m.vertices[3]? = some (some 0))
      ∧ (m.vertices[12]? = some (some 0) ∧ m.vertices[13]? = some (some (1 / 2))) := by
  obtain ⟨m, hm, hv⟩ := C7_vertex_positions 20 (1 / 2) (by decide) (by decide) (by norm_num)
  have h1 := hv 1 (by decide) (by decide)
  have h6 := hv 6 (by decide) (by decide)
  have t6 : (((6 : Nat) : ℝ) - 1) * (2 * Real.pi) / ((20 : Nat) : ℝ) = Real.pi / 2 := by
    push_cast; ring
  rw [t6, Real.cos_pi_div_two, Real.sin_pi_div_two] at h6
  norm_num at h1 h6
  exact ⟨m, hm, h1, h6⟩

end MeshClaims

end Pong
